import Mathlib

set_option maxRecDepth 40000

/-!
Verification development for the video-semantic-search ingestion core:
a shallow embedding of `app/utils/duplicate_detector.py`,
`app/services/search/faiss_service.py` and `app/services/video/processor.py`,
together with theorems settling the specification claims about them.

Embeddings (float vectors in the source) are modelled as lists of
rationals; perceptual hashes (imagehash 64-bit phash values) as lists of
booleans compared by Hamming distance.  Frames enter the duplicate
detector only through their perceptual hash (`imagehash.phash` is a
deterministic function of the pixel content), so a frame is represented
by its hash bit string.  Fallible operations return `Option` / an
explicit error constructor: `none` / `.err` marks the places where the
Python code raises.
-/

/-- An embedding vector (`np.ndarray` of floats in the source). -/
abbrev Emb := List ℚ

/-- A perceptual-hash bit signature (`imagehash.ImageHash`). -/
abbrev Hash := List Bool

/-- `np.dot` of two equal-length vectors.  Callers guard the lengths the
same way the NumPy calls in the source do. -/
def dot (a b : Emb) : ℚ := (List.zipWith (fun x y => x * y) a b).sum

/-- Hamming distance between two bit signatures; `imagehash` implements
`hash1 - hash2` as the count of differing bits. -/
def bitDiffCount (a b : Hash) : ℕ := (List.zipWith (fun x y => xor x y) a b).count true

/-- Python slice `l[-n:]` for `n > 0`: the last `n` elements (all of them
when fewer than `n` exist).  `l[-0:]` is the whole list. -/
def sliceLast (n : ℕ) (l : List α) : List α :=
  if n = 0 then l else l.drop (l.length - n)

/- Configuration constants from `app/core/config.py` (`Settings` defaults). -/

namespace Settings

def SIMILARITY_THRESHOLD : ℚ := 95 / 100

def HASH_THRESHOLD : ℤ := 5

def WINDOW_SIZE : ℕ := 10

def BATCH_SIZE : ℕ := 32

def EMBEDDING_DIM : ℕ := 768

end Settings

/- Class constants of `DuplicateDetector` in `app/utils/duplicate_detector.py`. -/

namespace DuplicateDetector

def RECENT_HASH_CHECK_COUNT : ℕ := 5

def LSH_SEARCH_K : ℕ := 10

def LSH_UPDATE_FREQUENCY : ℕ := 100

def LSH_BITS : ℕ := 8

def EMBEDDING_DIM : ℕ := 768

end DuplicateDetector

/-- Constructor parameters of `DuplicateDetector` plus the
`settings.SIMILARITY_THRESHOLD` global that `is_similar_to_any` reads. -/
structure DDConfig where
  hashThreshold : ℤ
  windowSize : ℕ
  simThreshold : ℚ
deriving DecidableEq

/-- Default configuration: `settings.HASH_THRESHOLD`,
`settings.WINDOW_SIZE`, `settings.SIMILARITY_THRESHOLD`. -/
def defaultCfg : DDConfig :=
  ⟨Settings.HASH_THRESHOLD, Settings.WINDOW_SIZE, Settings.SIMILARITY_THRESHOLD⟩

/-- The per-video mutable state of a `DuplicateDetector`:
`self.recent_frames` (each entry a dict holding only the hash),
`self.frame_embeddings`, and `self.lsh_index` (modelled by the snapshot
of embeddings that were added to the FAISS LSH index when it was last
rebuilt; `none` is Python `None`). -/
structure DDState where
  recentFrames : List Hash
  frameEmbeddings : List Emb
  lshIndex : Option (List Emb)
deriving DecidableEq

namespace DDState

/-- `DuplicateDetector.clear`: resets all three state components. -/
def clear : DDState := ⟨[], [], none⟩

end DDState

/-- Outcome of `is_duplicate`: the source returns `(True, None)` for a
duplicate, `(False, embedding)` for a unique frame, or raises. -/
inductive DDResult where
  | dup : DDResult
  | unique : Emb → DDResult
  | err : DDResult
deriving DecidableEq

/-- `hash_difference`: difference of two perceptual hashes, as an
integer (the comparison threshold is a Python int). -/
def hash_difference (h1 h2 : Hash) : ℤ := bitDiffCount h1 h2

/-- `is_similar_to_any`: `none` models the NumPy exception raised when
the stacked `existing` rows and `embedding` do not have one common
length; otherwise whether any rescaled similarity `(dot+1)/2` is
strictly above the threshold.  The empty list short-circuits to
`False` before any NumPy call. -/
def is_similar_to_any (θ : ℚ) (embedding : Emb) (existing : List Emb) : Option Bool :=
  if existing.isEmpty then some false
  else if existing.any (fun e => e.length ≠ embedding.length) then none
  else some (existing.any (fun e => decide ((dot e embedding + 1) / 2 > θ)))

/-- Whether a list of rows cannot be stacked into one rectangular
`np.float32` array (ragged rows make `np.array(...).astype` raise). -/
def raggedRows (l : List Emb) : Bool :=
  match l with
  | [] => false
  | e :: es => es.any (fun x => x.length ≠ e.length)

/-- `update_lsh_index`.  Returns `(succeeded, state)`.  With ragged rows
`np.array` raises before the index object is created (state unchanged);
with a rectangular array of width other than `EMBEDDING_DIM` the fresh
`faiss.IndexLSH` has already been assigned to `self.lsh_index` when
`add` raises, leaving an empty index behind. -/
def update_lsh_index (s : DDState) : Bool × DDState :=
  if s.frameEmbeddings.isEmpty then (true, s)
  else if raggedRows s.frameEmbeddings then (false, s)
  else if s.frameEmbeddings.any (fun e => e.length ≠ DuplicateDetector.EMBEDDING_DIM) then
    (false, { s with lshIndex := some [] })
  else (true, { s with lshIndex := some s.frameEmbeddings })

/-- Model of `faiss.IndexLSH(768, 8).search(q, k=10)` on the vectors
`snapshot` stored in the index: each vector is reduced to the sign bits
of its first `LSH_BITS` coordinates, candidates are ranked by Hamming
distance to the query signature (ties by ascending insertion index, the
boundary convention at exactly `0` is immaterial to every result
below), the `k` best indices are returned and, as FAISS does when the
index holds fewer than `k` vectors, the output is padded to length `k`
with `-1`. -/
def lshOrder (p q : ℕ × ℕ) : Prop := p.2 < q.2 ∨ (p.2 = q.2 ∧ p.1 ≤ q.1)

instance : DecidableRel lshOrder := fun p q =>
  inferInstanceAs (Decidable (p.2 < q.2 ∨ (p.2 = q.2 ∧ p.1 ≤ q.1)))

def lshSignature (v : Emb) : List Bool :=
  (v.take DuplicateDetector.LSH_BITS).map (fun x => decide (0 < x))

def lshSearchModel (snapshot : List Emb) (q : Emb) : List ℤ :=
  let qs := lshSignature q
  let scored := snapshot.enum.map (fun p => (p.1, bitDiffCount (lshSignature p.2) qs))
  let ranked := (List.insertionSort lshOrder scored).take DuplicateDetector.LSH_SEARCH_K
  ranked.map (fun p => (p.1 : ℤ)) ++
    List.replicate (DuplicateDetector.LSH_SEARCH_K - ranked.length) (-1)

/-- The first (perceptual-hash) stage of `is_duplicate`: some hash among
the last `RECENT_HASH_CHECK_COUNT` accepted ones is strictly closer
than `hash_threshold`. -/
def stage1HitB (cfg : DDConfig) (frameHash : Hash) (s : DDState) : Bool :=
  (sliceLast DuplicateDetector.RECENT_HASH_CHECK_COUNT s.recentFrames).any
    (fun h => decide (hash_difference frameHash h < cfg.hashThreshold))

/-- Common tail of `is_duplicate`: the frame was judged unique, append
its hash and embedding and return the embedding. -/
def acceptFrame (frameHash : Hash) (emb : Emb) (s : DDState) : DDResult × DDState :=
  (.unique emb,
   { s with recentFrames := s.recentFrames ++ [frameHash],
            frameEmbeddings := s.frameEmbeddings ++ [emb] })

/-- The third (approximate-lookback) stage of `is_duplicate`, reached
when the first two stages found nothing and
`len(frame_embeddings) > window_size`: maybe rebuild the LSH index,
query it, bounds-check the returned indices against the current
embedding list, and compare against the surviving candidates.
`ann` abstracts the LSH search (instantiated by `lshSearchModel`). -/
def lshStage (cfg : DDConfig) (ann : List Emb → Emb → List ℤ)
    (frameHash : Hash) (emb : Emb) (s : DDState) : DDResult × DDState :=
  let p :=
    if s.lshIndex = none ∨ s.frameEmbeddings.length % DuplicateDetector.LSH_UPDATE_FREQUENCY = 0
    then update_lsh_index s else (true, s)
  if p.1 = false then (.err, p.2)
  else
    match p.2.lshIndex with
    | none => acceptFrame frameHash emb p.2
    | some snapshot =>
      if emb.length ≠ DuplicateDetector.EMBEDDING_DIM then (.err, p.2)
      else
        let idxs := ann snapshot emb
        let cands := idxs.filterMap (fun i =>
          if 0 ≤ i ∧ i < (p.2.frameEmbeddings.length : ℤ)
          then p.2.frameEmbeddings.get? i.toNat else none)
        match is_similar_to_any cfg.simThreshold emb cands with
        | none => (.err, p.2)
        | some true => (.dup, p.2)
        | some false => acceptFrame frameHash emb p.2

/-- `DuplicateDetector.is_duplicate`: hash stage, then windowed
similarity stage, then approximate lookback; the frame is appended and
returned as unique only when every stage passes. -/
def is_duplicate (cfg : DDConfig) (ann : List Emb → Emb → List ℤ)
    (frameHash : Hash) (emb : Emb) (s : DDState) : DDResult × DDState :=
  if stage1HitB cfg frameHash s then (.dup, s)
  else
    match is_similar_to_any cfg.simThreshold emb (sliceLast cfg.windowSize s.frameEmbeddings) with
    | none => (.err, s)
    | some true => (.dup, s)
    | some false =>
      if s.frameEmbeddings.length > cfg.windowSize
      then lshStage cfg ann frameHash emb s
      else acceptFrame frameHash emb s

/-!
## `FAISSService` (`app/services/search/faiss_service.py`)

The store pairs a `faiss.IndexFlatIP` (an ordered list of vectors) with
a metadata list; `__init__` loads both from the index directory.
-/

/-- One metadata dict as built by `VideoProcessor.process_frame`:
`{"frame_path": ..., "video_name": ..., "timestamp": ...}`. -/
structure Record where
  framePath : String
  videoName : String
  timestamp : ℚ
deriving DecidableEq, Inhabited

/-- The persisted `metadata.json` artifact as `_load_metadata` can find
it: absent, unparsable JSON (`json.JSONDecodeError`), JSON that is not a
list, or a well-formed list of records. -/
inductive MetaFile where
  | absent : MetaFile
  | badJson : MetaFile
  | nonList : MetaFile
  | valid : List Record → MetaFile
deriving DecidableEq

/-- The index directory on disk: the optional serialized `index.faiss`
(its vector contents, in order) and the metadata artifact. -/
structure Disk where
  indexFile : Option (List Emb)
  metaFile : MetaFile
deriving DecidableEq

/-- In-memory state of a `FAISSService`: the FAISS index contents and
`self.metadata`. -/
structure FaissState where
  vectors : List Emb
  metadata : List Record
deriving DecidableEq

/-- `_initialize_index`: load the persisted index if present, else a new
empty `IndexFlatIP`. -/
def initialize_index (d : Disk) : List Emb :=
  match d.indexFile with
  | some vs => vs
  | none => []

/-- `_load_metadata`: a well-formed list is loaded; a decode error or a
non-list JSON value is logged and replaced by the empty list; a missing
file initializes empty metadata. -/
def load_metadata (d : Disk) : List Record :=
  match d.metaFile with
  | .valid rs => rs
  | _ => []

/-- `FAISSService.__init__` (the state-relevant part): load index and
metadata from the directory. -/
def openService (d : Disk) : FaissState :=
  ⟨initialize_index d, load_metadata d⟩

/-- `save_index`: write both artifacts to the directory. -/
def save_index (s : FaissState) : Disk :=
  ⟨some s.vectors, .valid s.metadata⟩

/-- `store_embeddings`: an empty batch is a warned no-op; a batch that
does not stack into an `(n, dim)` array (ragged rows, or width other
than `settings.EMBEDDING_DIM`) raises before anything is mutated
(`none`); otherwise vectors and metadata are appended. -/
def store_embeddings (dim : ℕ) (embeddings : List Emb) (metadata : List Record)
    (s : FaissState) : Option FaissState :=
  if embeddings.isEmpty then some s
  else if embeddings.any (fun e => e.length ≠ dim) then none
  else some ⟨s.vectors ++ embeddings, s.metadata ++ metadata⟩

/-- Ranking used by `IndexFlatIP.search`: larger inner product first
(ties by ascending index; every property proved below is independent of
the tie order). -/
def ipOrder (p q : ℕ × ℚ) : Prop := q.2 < p.2 ∨ (p.2 = q.2 ∧ p.1 ≤ q.1)

instance : DecidableRel ipOrder := fun p q =>
  inferInstanceAs (Decidable (q.2 < p.2 ∨ (p.2 = q.2 ∧ p.1 ≤ q.1)))

/-- `FAISSService.search`.  `embedResult` is the outcome of the external
`generate_text_embedding` call (`none` when it raises — that exception
is caught and an empty result returned).  An empty index short-circuits
to an empty result before the embedding is generated.  A query vector
whose length differs from the index dimension makes the FAISS call
raise (`none` overall).  Otherwise the `top_k` best inner-product
matches are returned in descending score order, FAISS padding the
output with index `-1` when the store has fewer than `top_k` vectors,
and every returned index is bounds-checked against the metadata list —
out-of-range indices are skipped, never propagated. -/
def search (dim : ℕ) (s : FaissState) (embedResult : Option Emb) (topK : ℕ) :
    Option (List (Record × ℚ)) :=
  if s.vectors.length = 0 then some []
  else
    match embedResult with
    | none => some []
    | some q =>
      if q.length ≠ dim then none
      else
        let scored := s.vectors.enum.map (fun p => (p.1, dot p.2 q))
        let ranked := (List.insertionSort ipOrder scored).take topK
        let padded : List (ℤ × ℚ) :=
          ranked.map (fun p => ((p.1 : ℤ), p.2)) ++
            List.replicate (topK - ranked.length) (-1, 0)
        some (padded.filterMap (fun p =>
          if 0 ≤ p.1 ∧ p.1 < (s.metadata.length : ℤ)
          then (s.metadata.get? p.1.toNat).map (fun r => (r, p.2)) else none))

/-- The pairing invariant of the spec:
`len(vectors) == len(records)`. -/
def pairedStore (s : FaissState) : Prop := s.vectors.length = s.metadata.length

/-!
## `VideoProcessor` (`app/services/video/processor.py`)
-/

/-- One extracted frame as the pipeline sees it, together with the
outcomes of its two external side calls: `generate_image_embedding`
(`none` when inference raises) and `save_frame` (`false` when writing
the asset raises). -/
structure FrameInput where
  hash : Hash
  timestamp : ℚ
  embedResult : Option Emb
  saveOk : Bool
deriving DecidableEq

/-- Zero-pad a frame index to five digits (`f"{frame_index:05d}"`). -/
def pad5 (n : ℕ) : String :=
  let s := toString n
  String.mk (List.replicate (5 - s.length) (Char.ofNat 48)) ++ s

/-- The metadata dict built for an accepted frame. -/
def mkRecord (videoName : String) (frameIndex : ℕ) (timestamp : ℚ) : Record :=
  ⟨videoName ++ "_frame_" ++ pad5 frameIndex ++ ".jpg", videoName, timestamp⟩

/-- `VideoProcessor.process_frame`: generate the embedding, consult the
duplicate detector, save the frame asset, build the metadata dict.  Any
exception along the way is caught and `(None, None)` returned — but
mutations the detector already made stick. -/
def process_frame (cfg : DDConfig) (ann : List Emb → Emb → List ℤ)
    (f : FrameInput) (videoName : String) (frameIndex : ℕ) (det : DDState) :
    (Option Record × Option Emb) × DDState :=
  match f.embedResult with
  | none => ((none, none), det)
  | some emb =>
    match is_duplicate cfg ann f.hash emb det with
    | (.err, det') => ((none, none), det')
    | (.dup, det') => ((none, none), det')
    | (.unique e, det') =>
      if f.saveOk
      then ((some (mkRecord videoName frameIndex f.timestamp), some e), det')
      else ((none, none), det')

/-- Loop state of one `process_video` call: the shared FAISS service
state, the shared detector state, the per-video counters and the
pending batch.  `aborted` records that a `store_embeddings` flush
raised, which aborts the video (the loop stops, counters are
discarded). -/
structure VideoRun where
  faiss : FaissState
  det : DDState
  framesExtracted : ℕ
  duplicates : ℕ
  framesStored : ℕ
  batchE : List Emb
  batchM : List Record
  aborted : Bool
deriving DecidableEq

/-- Fresh loop state at the start of a video. -/
def initRun (fs : FaissState) : VideoRun :=
  ⟨fs, DDState.clear, 0, 0, 0, [], [], false⟩

/-- The per-frame loop of `process_video`: count the frame, process it,
either accumulate it into the batch (flushing a full batch to
`store_embeddings`) or count a duplicate. -/
def runFrames (cfg : DDConfig) (ann : List Emb → Emb → List ℤ)
    (batchSize dim : ℕ) (videoName : String) :
    List FrameInput → ℕ → VideoRun → VideoRun
  | [], _, r => r
  | f :: fs, i, r =>
    let q := process_frame cfg ann f videoName i r.det
    match q.1 with
    | (some md, some e) =>
      let r1 := { r with det := q.2,
                         framesExtracted := r.framesExtracted + 1,
                         framesStored := r.framesStored + 1,
                         batchE := r.batchE ++ [e],
                         batchM := r.batchM ++ [md] }
      if r1.batchE.length ≥ batchSize then
        match store_embeddings dim r1.batchE r1.batchM r1.faiss with
        | some fs' =>
          runFrames cfg ann batchSize dim videoName fs (i + 1)
            { r1 with faiss := fs', batchE := [], batchM := [] }
        | none => { r1 with aborted := true }
      else runFrames cfg ann batchSize dim videoName fs (i + 1) r1
    | _ =>
      runFrames cfg ann batchSize dim videoName fs (i + 1)
        { r with det := q.2,
                 framesExtracted := r.framesExtracted + 1,
                 duplicates := r.duplicates + 1 }

/-- End of the frame loop: flush any remaining batch. -/
def flushRemainder (dim : ℕ) (r : VideoRun) : VideoRun :=
  if r.aborted then r
  else if r.batchE.isEmpty then r
  else
    match store_embeddings dim r.batchE r.batchM r.faiss with
    | some fs' => { r with faiss := fs' }
    | none => { r with aborted := true }

/-- Whole-run pipeline state: the shared services, the processed-video
set, the cumulative counters, and the index directory on disk. -/
structure PipelineState where
  faiss : FaissState
  detector : DDState
  processedVideos : List String
  totalFramesExtracted : ℕ
  totalDuplicateFrames : ℕ
  totalFramesStored : ℕ
  disk : Disk
deriving DecidableEq

/-- `VideoProcessor.process_video`.  `extractResult` is the outcome of
the external `extract_frames` call (`none` when it raises; the detector
has already been cleared at that point).  A video name already in
`processed_videos` is skipped.  An exception from a `store_embeddings`
flush aborts the video: committed store and detector mutations stick,
but the per-video counters are discarded and the video is not marked
processed.  On success the per-video counters are added to the
cumulative ones.  No branch writes to disk. -/
def process_video (cfg : DDConfig) (ann : List Emb → Emb → List ℤ)
    (batchSize dim : ℕ) (videoName : String)
    (extractResult : Option (List FrameInput)) (ps : PipelineState) :
    PipelineState :=
  if videoName ∈ ps.processedVideos then ps
  else
    match extractResult with
    | none => { ps with detector := DDState.clear }
    | some frames =>
      let r := flushRemainder dim
        (runFrames cfg ann batchSize dim videoName frames 0 (initRun ps.faiss))
      if r.aborted then { ps with faiss := r.faiss, detector := r.det }
      else
        { ps with
            faiss := r.faiss,
            detector := r.det,
            processedVideos := videoName :: ps.processedVideos,
            totalFramesExtracted := ps.totalFramesExtracted + r.framesExtracted,
            totalDuplicateFrames := ps.totalDuplicateFrames + r.duplicates,
            totalFramesStored := ps.totalFramesStored + r.framesStored }

/-- `VideoProcessor.finalize_processing`: persist via `save_index` only
when the run stored at least one new frame; otherwise do nothing. -/
def finalize_processing (ps : PipelineState) : PipelineState :=
  if ps.totalFramesStored > 0 then { ps with disk := save_index ps.faiss } else ps

/-!
## Claims about the vector store
-/

/-- C1 (amended).  The pairing `len(vectors) == len(records)` is
preserved by `store_embeddings` whenever its two batch lists have equal
length (appends keep earlier entries unchanged, in order, so an entry's
ordinal position is stable), it is preserved across `save_index`
followed by a reload, it holds for a fresh directory, and malformed
metadata is leniently replaced by the empty list — but (see the
counterexample) that lenient replacement next to a still-loaded
non-empty index file *breaks* the pairing at `open`, so the claim's
"including open ... even when the persisted metadata artifact is
malformed" does not hold. -/
theorem C1_pairing_and_append_only :
    (∀ dim embs md s s1, embs.length = md.length →
        store_embeddings dim embs md s = some s1 →
        s1.vectors = s.vectors ++ embs ∧ s1.metadata = s.metadata ++ md) ∧
    (∀ dim embs md s s1, embs.length = md.length → pairedStore s →
        store_embeddings dim embs md s = some s1 → pairedStore s1) ∧
    (∀ s, pairedStore s → pairedStore (openService (save_index s))) ∧
    pairedStore (openService ⟨none, .absent⟩) ∧
    (∀ d, d.metaFile = .badJson ∨ d.metaFile = .nonList → load_metadata d = []) := by
  have hA : ∀ dim embs md s s1, embs.length = md.length →
      store_embeddings dim embs md s = some s1 →
      s1.vectors = s.vectors ++ embs ∧ s1.metadata = s.metadata ++ md := by
    intro dim embs md s s1 hlen h
    unfold store_embeddings at h
    split_ifs at h with h1 h2
    · have hh : embs = [] := by simpa [List.isEmpty_iff] using h1
      have hmd : md = [] := by
        subst hh
        exact List.length_eq_zero.mp hlen.symm
      cases h
      simp [hh, hmd]
    · cases h
      exact ⟨rfl, rfl⟩
  refine ⟨hA, ?_, ?_, ?_, ?_⟩
  · intro dim embs md s s1 hlen hp h
    obtain ⟨h1, h2⟩ := hA dim embs md s s1 hlen h
    unfold pairedStore at hp ⊢
    simp [h1, h2, hp, hlen]
  · intro s hp
    cases s
    simpa [openService, save_index, initialize_index, load_metadata, pairedStore] using hp
  · simp [openService, initialize_index, load_metadata, pairedStore]
  · intro d h
    rcases h with h | h <;> simp [load_metadata, h]

/-- C1 counterexample: a directory whose index file holds one vector but
whose metadata artifact is unparsable JSON.  `open` leniently replaces
the metadata by `[]` while still loading the vector, so the service
starts with 1 vector and 0 records — the pairing invariant does not
hold after this `open`, contrary to the claim. -/
theorem C1_pairing_cex :
    (openService ⟨some [[1]], .badJson⟩).vectors.length = 1 ∧
    (openService ⟨some [[1]], .badJson⟩).metadata.length = 0 ∧
    ¬ pairedStore (openService ⟨some [[1]], .badJson⟩) := by
  refine ⟨rfl, rfl, ?_⟩
  simp [openService, initialize_index, load_metadata, pairedStore]

/-- Witness for C1: a concrete one-element batch stored into the empty
service. -/
theorem C1_pairing_and_append_only_witness :
    ([[(1 : ℚ)]].length = [(default : Record)].length) ∧
    pairedStore ⟨[], []⟩ ∧
    store_embeddings 1 [[(1 : ℚ)]] [default] ⟨[], []⟩ = some ⟨[[1]], [default]⟩ ∧
    ((FaissState.mk [[1]] [default]).vectors = ([] : List Emb) ++ [[1]] ∧
      (FaissState.mk [[1]] [default]).metadata = ([] : List Record) ++ [default]) ∧
    pairedStore ⟨[[1]], [default]⟩ := by
  have hs : store_embeddings 1 [[(1 : ℚ)]] [default] ⟨[], []⟩ = some ⟨[[1]], [default]⟩ := by
    simp [store_embeddings]
  refine ⟨rfl, rfl, hs, ?_, ?_⟩
  · exact C1_pairing_and_append_only.1 1 [[(1 : ℚ)]] [default] ⟨[], []⟩ ⟨[[1]], [default]⟩ rfl hs
  · exact C1_pairing_and_append_only.2.1 1 [[(1 : ℚ)]] [default] ⟨[], []⟩ ⟨[[1]], [default]⟩ rfl rfl hs

/-- C2.  `save_index` followed by a fresh `open` on the same directory
reproduces the store exactly — same vector count, same order and
content of vectors and metadata — hence `search` for any fixed query
(i.e. any outcome of the external query-embedding call) returns
results identical to the pre-persist ones (identical scores, so in
particular they match within 1e-5). -/
theorem C2_roundtrip :
    ∀ s : FaissState,
      openService (save_index s) = s ∧
      (openService (save_index s)).vectors.length = s.vectors.length ∧
      (openService (save_index s)).metadata = s.metadata ∧
      ∀ dim embedResult topK,
        search dim (openService (save_index s)) embedResult topK =
          search dim s embedResult topK := by
  intro s
  have h : openService (save_index s) = s := by
    cases s
    rfl
  exact ⟨h, by rw [h], by rw [h], fun dim er k => by rw [h]⟩

/-- C7.  The search path is fail-open: an empty store returns `[]`
(before the query embedding is even generated), a failed
query-embedding call returns `[]`, and every record in a returned
result list comes from the metadata list — indices out of range for
the metadata are skipped by the bounds check, never propagated. -/
theorem C7_search_fail_open :
    (∀ dim s embedResult topK, s.vectors = [] →
        search dim s embedResult topK = some []) ∧
    (∀ dim s topK, search dim s none topK = some []) ∧
    (∀ dim s q topK rs, search dim s (some q) topK = some rs →
        ∀ p ∈ rs, p.1 ∈ s.metadata) := by
  refine ⟨?_, ?_, ?_⟩
  · intro dim s er k h
    simp [search, h]
  · intro dim s k
    unfold search
    split <;> rfl
  · intro dim s q k rs h p hp
    by_cases h0 : s.vectors.length = 0
    · simp [search, h0] at h
      subst h
      cases hp
    · by_cases hq : q.length = dim
      · simp only [search, h0, if_neg h0, hq, ne_eq, not_true_eq_false, if_false,
          ite_false] at h
        injection h with h
        subst h
        obtain ⟨a, _, ha⟩ := List.mem_filterMap.mp hp
        split at ha
        · obtain ⟨r, hr, hrp⟩ := Option.map_eq_some'.mp ha
          have := List.get?_mem hr
          cases hrp
          simpa using this
        · cases ha
      · simp [search, h0, hq] at h

/-!
## Claims about the duplicate detector
-/

lemma update_lsh_index_lists (s : DDState) :
    (update_lsh_index s).2.recentFrames = s.recentFrames ∧
    (update_lsh_index s).2.frameEmbeddings = s.frameEmbeddings := by
  unfold update_lsh_index
  split_ifs <;> simp

/-- Every run of `lshStage` either stops with `.err`/`.dup` leaving the
hash and embedding lists untouched (though possibly with a rebuilt
`lshIndex`), or accepts the frame from such a state. -/
lemma lshStage_shape (cfg : DDConfig) (ann : List Emb → Emb → List ℤ)
    (frameHash : Hash) (emb : Emb) (s : DDState) :
    (∃ s1, (lshStage cfg ann frameHash emb s = (.err, s1) ∨
            lshStage cfg ann frameHash emb s = (.dup, s1)) ∧
        s1.recentFrames = s.recentFrames ∧ s1.frameEmbeddings = s.frameEmbeddings) ∨
    (∃ s1, lshStage cfg ann frameHash emb s = acceptFrame frameHash emb s1 ∧
        s1.recentFrames = s.recentFrames ∧ s1.frameEmbeddings = s.frameEmbeddings) := by
  have hp : ∀ b s1,
      (if s.lshIndex = none ∨
          s.frameEmbeddings.length % DuplicateDetector.LSH_UPDATE_FREQUENCY = 0
        then update_lsh_index s else (true, s)) = (b, s1) →
      s1.recentFrames = s.recentFrames ∧ s1.frameEmbeddings = s.frameEmbeddings := by
    intro b s1 h
    split at h
    · have := update_lsh_index_lists s
      rw [h] at this
      exact this
    · cases h
      exact ⟨rfl, rfl⟩
  unfold lshStage
  rcases hq : (if s.lshIndex = none ∨
      s.frameEmbeddings.length % DuplicateDetector.LSH_UPDATE_FREQUENCY = 0
    then update_lsh_index s else (true, s)) with ⟨b, s1⟩
  obtain ⟨hr, hf⟩ := hp b s1 hq
  dsimp only
  by_cases hb : b = false
  · subst hb
    exact Or.inl ⟨s1, Or.inl (by simp), hr, hf⟩
  · simp only [hb, if_false, ite_false]
    cases hL : s1.lshIndex with
    | none => exact Or.inr ⟨s1, by simp, hr, hf⟩
    | some snapshot =>
      by_cases hd : emb.length ≠ DuplicateDetector.EMBEDDING_DIM
      · exact Or.inl ⟨s1, Or.inl (by simp [hd]), hr, hf⟩
      · simp only [hd, if_false, ite_false]
        cases hs : is_similar_to_any cfg.simThreshold emb
            ((ann snapshot emb).filterMap (fun i =>
              if 0 ≤ i ∧ i < (s1.frameEmbeddings.length : ℤ)
              then s1.frameEmbeddings.get? i.toNat else none)) with
        | none => exact Or.inl ⟨s1, Or.inl (by simp [hs]), hr, hf⟩
        | some bb =>
          cases bb with
          | true => exact Or.inl ⟨s1, Or.inr (by simp [hs]), hr, hf⟩
          | false => exact Or.inr ⟨s1, by simp [hs], hr, hf⟩

/-- C3 (amended).  The three stages run in the fixed order
hash → windowed similarity → approximate lookback and short-circuit on
the first positive signal, so no later stage can turn an earlier
positive verdict into Unique: a hash-stage hit returns Duplicate with
the state fully unchanged, a windowed-similarity hit returns Duplicate
with the state fully unchanged, every Duplicate verdict leaves the
recent-hash and accepted-embedding lists unchanged (the approximate
stage may however rebuild the ANN index first — see the
counterexample), and a Unique verdict returns the given embedding with
exactly the frame's hash and embedding appended. -/
theorem C3_stage_order :
    ∀ cfg ann frameHash emb s,
      (stage1HitB cfg frameHash s = true →
        is_duplicate cfg ann frameHash emb s = (.dup, s)) ∧
      (stage1HitB cfg frameHash s = false →
        is_similar_to_any cfg.simThreshold emb
            (sliceLast cfg.windowSize s.frameEmbeddings) = some true →
        is_duplicate cfg ann frameHash emb s = (.dup, s)) ∧
      ((is_duplicate cfg ann frameHash emb s).1 = .dup →
        (is_duplicate cfg ann frameHash emb s).2.recentFrames = s.recentFrames ∧
        (is_duplicate cfg ann frameHash emb s).2.frameEmbeddings = s.frameEmbeddings) ∧
      (∀ e, (is_duplicate cfg ann frameHash emb s).1 = .unique e →
        e = emb ∧
        (is_duplicate cfg ann frameHash emb s).2.recentFrames =
          s.recentFrames ++ [frameHash] ∧
        (is_duplicate cfg ann frameHash emb s).2.frameEmbeddings =
          s.frameEmbeddings ++ [emb]) := by
  intro cfg ann frameHash emb s
  have shape :
      (∃ s1, (is_duplicate cfg ann frameHash emb s = (.err, s1) ∨
              is_duplicate cfg ann frameHash emb s = (.dup, s1)) ∧
          s1.recentFrames = s.recentFrames ∧ s1.frameEmbeddings = s.frameEmbeddings) ∨
      (∃ s1, is_duplicate cfg ann frameHash emb s = acceptFrame frameHash emb s1 ∧
          s1.recentFrames = s.recentFrames ∧ s1.frameEmbeddings = s.frameEmbeddings) := by
    by_cases h1 : stage1HitB cfg frameHash s = true
    · exact Or.inl ⟨s, Or.inr (by simp [is_duplicate, h1]), rfl, rfl⟩
    · rw [Bool.not_eq_true] at h1
      cases h2 : is_similar_to_any cfg.simThreshold emb
          (sliceLast cfg.windowSize s.frameEmbeddings) with
      | none => exact Or.inl ⟨s, Or.inl (by simp [is_duplicate, h1, h2]), rfl, rfl⟩
      | some b =>
        cases b with
        | true => exact Or.inl ⟨s, Or.inr (by simp [is_duplicate, h1, h2]), rfl, rfl⟩
        | false =>
          by_cases hlen : s.frameEmbeddings.length > cfg.windowSize
          · have heq : is_duplicate cfg ann frameHash emb s =
                lshStage cfg ann frameHash emb s := by
              simp [is_duplicate, h1, h2, hlen]
            rw [heq]
            exact lshStage_shape cfg ann frameHash emb s
          · exact Or.inr ⟨s, by simp [is_duplicate, h1, h2, hlen], rfl, rfl⟩
  refine ⟨fun h1 => by simp [is_duplicate, h1], fun h1 h2 => by simp [is_duplicate, h1, h2],
    ?_, ?_⟩
  · intro hdup
    rcases shape with ⟨s1, hor, hr, hf⟩ | ⟨s1, hacc, hr, hf⟩
    · rcases hor with h | h <;> rw [h] <;> rw [h] at hdup
      · cases hdup
      · exact ⟨hr, hf⟩
    · rw [hacc] at hdup
      cases hdup
  · intro e hu
    rcases shape with ⟨s1, hor, hr, hf⟩ | ⟨s1, hacc, hr, hf⟩
    · rcases hor with h | h <;> rw [h] at hu <;> cases hu
    · rw [hacc] at hu
      rw [hacc]
      unfold acceptFrame at hu ⊢
      simp only at hu
      cases hu
      exact ⟨rfl, by simp [hr], by simp [hf]⟩

lemma sliceLast_subset (n : ℕ) (l : List α) : ∀ x ∈ sliceLast n l, x ∈ l := by
  unfold sliceLast
  split
  · exact fun x h => h
  · exact fun x h => List.drop_subset _ _ h

lemma is_similar_to_any_isSome (θ : ℚ) (emb : Emb) (existing : List Emb)
    (h : ∀ e ∈ existing, e.length = emb.length) :
    is_similar_to_any θ emb existing =
      some (existing.any (fun e => decide ((dot e emb + 1) / 2 > θ))) := by
  unfold is_similar_to_any
  split_ifs with h1 h2
  · rw [List.isEmpty_iff] at h1
    subst h1
    rfl
  · exfalso
    rw [List.any_eq_true] at h2
    obtain ⟨e, he, hne⟩ := h2
    exact (of_decide_eq_true hne) (h e he)
  · rfl

lemma is_similar_to_any_spec (θ : ℚ) (emb : Emb) (existing : List Emb)
    (h : ∀ e ∈ existing, e.length = emb.length) :
    is_similar_to_any θ emb existing =
      some (decide (∃ e ∈ existing, (dot e emb + 1) / 2 > θ)) := by
  rw [is_similar_to_any_isSome θ emb existing h]
  congr 1
  cases hh : existing.any (fun e => decide ((dot e emb + 1) / 2 > θ)) with
  | false =>
    symm
    rw [decide_eq_false_iff_not]
    rintro ⟨e, he, hgt⟩
    rw [List.any_eq_false] at hh
    have := hh e he
    simp only [decide_eq_true_eq] at this
    exact this hgt
  | true =>
    symm
    rw [decide_eq_true_eq]
    rw [List.any_eq_true] at hh
    obtain ⟨e, he, hd⟩ := hh
    exact ⟨e, he, of_decide_eq_true hd⟩

lemma lshStage_no_err (cfg : DDConfig) (ann : List Emb → Emb → List ℤ)
    (frameHash : Hash) (emb : Emb) (s : DDState)
    (hd : emb.length = DuplicateDetector.EMBEDDING_DIM)
    (hall : ∀ e ∈ s.frameEmbeddings, e.length = DuplicateDetector.EMBEDDING_DIM) :
    (lshStage cfg ann frameHash emb s).1 ≠ .err := by
  unfold lshStage
  rcases hq : (if s.lshIndex = none ∨
      s.frameEmbeddings.length % DuplicateDetector.LSH_UPDATE_FREQUENCY = 0
    then update_lsh_index s else (true, s)) with ⟨b, s1⟩
  have hb : b = true ∧ s1.frameEmbeddings = s.frameEmbeddings := by
    split at hq
    · unfold update_lsh_index at hq
      split_ifs at hq with he hr h7
      · cases hq
        exact ⟨rfl, rfl⟩
      · exfalso
        revert hr
        cases hfe : s.frameEmbeddings with
        | nil => simp [raggedRows]
        | cons e es =>
          simp only [raggedRows, List.any_eq_true, decide_eq_true_eq, Bool.not_eq_true]
          rintro ⟨x, hx, hxe⟩
          have h1 := hall x (by rw [hfe]; exact List.mem_cons_of_mem _ hx)
          have h2 := hall e (by rw [hfe]; exact List.mem_cons_self _ _)
          exact hxe (h1.trans h2.symm)
      · exfalso
        rw [List.any_eq_true] at h7
        obtain ⟨e, he, hne⟩ := h7
        exact (of_decide_eq_true hne) (hall e he)
      · cases hq
        exact ⟨rfl, rfl⟩
    · cases hq
      exact ⟨rfl, rfl⟩
  obtain ⟨hb1, hs1⟩ := hb
  subst hb1
  dsimp only
  rw [if_neg (by simp)]
  cases hL : s1.lshIndex with
  | none => simp [acceptFrame]
  | some snap =>
    dsimp only
    rw [if_neg (by simp [hd])]
    have hc : ∀ e ∈ (ann snap emb).filterMap (fun i =>
        if 0 ≤ i ∧ i < (s1.frameEmbeddings.length : ℤ)
        then s1.frameEmbeddings.get? i.toNat else none), e.length = emb.length := by
      intro e he
      obtain ⟨i, _, hi⟩ := List.mem_filterMap.mp he
      split at hi
      · have := List.get?_mem hi
        rw [hs1] at this
        exact (hall e this).trans hd.symm
      · cases hi
    rw [is_similar_to_any_isSome _ _ _ hc]
    cases ((ann snap emb).filterMap (fun i =>
        if 0 ≤ i ∧ i < (s1.frameEmbeddings.length : ℤ)
        then s1.frameEmbeddings.get? i.toNat else none)).any
        (fun e => decide ((dot e emb + 1) / 2 > cfg.simThreshold)) <;> simp [acceptFrame]

/-- C4 (amended).  `is_duplicate` performs no explicit dimension check:
an embedding of the configured dimension (together with a state whose
accepted embeddings all have that dimension, as accepted embeddings
do) never fails, and a wrong-length embedding fails — with the
dimension error arising from the NumPy dot product — exactly when the
evaluation reaches the windowed-similarity stage with a non-empty
window containing an embedding of a different length.  It does *not*
fail on every wrong-length embedding: with an empty window the
mismatched embedding sails through (see the counterexample). -/
theorem C4_dimension_handling :
    (∀ cfg ann frameHash emb s,
        emb.length = DuplicateDetector.EMBEDDING_DIM →
        (∀ e ∈ s.frameEmbeddings, e.length = DuplicateDetector.EMBEDDING_DIM) →
        (is_duplicate cfg ann frameHash emb s).1 ≠ .err) ∧
    (∀ cfg ann frameHash emb s,
        stage1HitB cfg frameHash s = false →
        sliceLast cfg.windowSize s.frameEmbeddings ≠ [] →
        (∃ e ∈ sliceLast cfg.windowSize s.frameEmbeddings, e.length ≠ emb.length) →
        is_duplicate cfg ann frameHash emb s = (.err, s)) := by
  constructor
  · intro cfg ann frameHash emb s hd hall
    by_cases h1 : stage1HitB cfg frameHash s = true
    · simp [is_duplicate, h1]
    · rw [Bool.not_eq_true] at h1
      have hw : ∀ e ∈ sliceLast cfg.windowSize s.frameEmbeddings, e.length = emb.length :=
        fun e he => (hall e (sliceLast_subset _ _ e he)).trans hd.symm
      have hsim := is_similar_to_any_isSome cfg.simThreshold emb
        (sliceLast cfg.windowSize s.frameEmbeddings) hw
      cases hany : (sliceLast cfg.windowSize s.frameEmbeddings).any
          (fun e => decide ((dot e emb + 1) / 2 > cfg.simThreshold)) with
      | true =>
        rw [hany] at hsim
        simp [is_duplicate, h1, hsim]
      | false =>
        rw [hany] at hsim
        by_cases hlen : s.frameEmbeddings.length > cfg.windowSize
        · have heq : is_duplicate cfg ann frameHash emb s =
              lshStage cfg ann frameHash emb s := by
            simp [is_duplicate, h1, hsim, hlen]
          rw [heq]
          exact lshStage_no_err cfg ann frameHash emb s hd hall
        · simp [is_duplicate, h1, hsim, hlen, acceptFrame]
  · intro cfg ann frameHash emb s h1 hne hex
    have hn : is_similar_to_any cfg.simThreshold emb
        (sliceLast cfg.windowSize s.frameEmbeddings) = none := by
      unfold is_similar_to_any
      rw [if_neg (by simpa [List.isEmpty_iff] using hne)]
      rw [if_pos]
      rw [List.any_eq_true]
      obtain ⟨e, he, hee⟩ := hex
      exact ⟨e, he, decide_eq_true hee⟩
    simp [is_duplicate, h1, hn]

lemma sliceLast_nil (n : ℕ) : sliceLast n ([] : List α) = [] := by
  unfold sliceLast
  split <;> simp

/-- C5.  With `similarity_threshold = 0.95` and `window_size = 10`, and
the hash stage passed, the windowed stage compares the candidate with
the last `window_size` accepted embeddings by the rescaled similarity
`(dot(a,b)+1)/2` and judges Duplicate exactly when some such value is
strictly above the threshold: a strict-exceed gives Duplicate (state
unchanged), and when no value exceeds (and the approximate stage does
not apply, i.e. at most `window_size` embeddings are stored) the frame
is accepted as Unique. -/
theorem C5_windowed_similarity :
    ∀ ann hashT frameHash emb (s : DDState),
      stage1HitB ⟨hashT, Settings.WINDOW_SIZE, Settings.SIMILARITY_THRESHOLD⟩
          frameHash s = false →
      (∀ e ∈ sliceLast Settings.WINDOW_SIZE s.frameEmbeddings, e.length = emb.length) →
      ((∃ e ∈ sliceLast Settings.WINDOW_SIZE s.frameEmbeddings,
          (dot e emb + 1) / 2 > Settings.SIMILARITY_THRESHOLD) →
        is_duplicate ⟨hashT, Settings.WINDOW_SIZE, Settings.SIMILARITY_THRESHOLD⟩
            ann frameHash emb s = (.dup, s)) ∧
      (s.frameEmbeddings.length ≤ Settings.WINDOW_SIZE →
        ¬ (∃ e ∈ sliceLast Settings.WINDOW_SIZE s.frameEmbeddings,
            (dot e emb + 1) / 2 > Settings.SIMILARITY_THRESHOLD) →
        is_duplicate ⟨hashT, Settings.WINDOW_SIZE, Settings.SIMILARITY_THRESHOLD⟩
            ann frameHash emb s = acceptFrame frameHash emb s) ∧
      (s.frameEmbeddings.length ≤ Settings.WINDOW_SIZE →
        ((is_duplicate ⟨hashT, Settings.WINDOW_SIZE, Settings.SIMILARITY_THRESHOLD⟩
            ann frameHash emb s).1 = .dup ↔
          ∃ e ∈ sliceLast Settings.WINDOW_SIZE s.frameEmbeddings,
            (dot e emb + 1) / 2 > Settings.SIMILARITY_THRESHOLD)) := by
  intro ann hashT frameHash emb s h1 hw
  have hsim := is_similar_to_any_spec Settings.SIMILARITY_THRESHOLD emb
    (sliceLast Settings.WINDOW_SIZE s.frameEmbeddings) hw
  by_cases hex : ∃ e ∈ sliceLast Settings.WINDOW_SIZE s.frameEmbeddings,
      (dot e emb + 1) / 2 > Settings.SIMILARITY_THRESHOLD
  · rw [decide_eq_true hex] at hsim
    have hdup : is_duplicate ⟨hashT, Settings.WINDOW_SIZE, Settings.SIMILARITY_THRESHOLD⟩
        ann frameHash emb s = (.dup, s) := by
      simp [is_duplicate, h1, hsim]
    exact ⟨fun _ => hdup, fun _ hnex => absurd hex hnex, fun _ => by simp [hdup, hex]⟩
  · rw [decide_eq_false hex] at hsim
    refine ⟨fun h => absurd h hex, fun hlen _ => ?_, fun hlen => ?_⟩
    · simp [is_duplicate, h1, hsim, Nat.not_lt.mpr hlen]
    · have hacc : is_duplicate ⟨hashT, Settings.WINDOW_SIZE, Settings.SIMILARITY_THRESHOLD⟩
          ann frameHash emb s = acceptFrame frameHash emb s := by
        simp [is_duplicate, h1, hsim, Nat.not_lt.mpr hlen]
      rw [hacc]
      simp [acceptFrame, hex]

/-- C6.  `clear` empties all three per-video state components; on the
cleared state every frame — whatever its hash and embedding, in
particular one identical to a frame accepted for an earlier video — is
judged Unique by its first evaluation; and `process_video` clears the
detector before processing, so its outcome never depends on the
detector state left behind by a previous video. -/
theorem C6_reset_cross_video :
    (DDState.clear.recentFrames = [] ∧ DDState.clear.frameEmbeddings = [] ∧
      DDState.clear.lshIndex = none) ∧
    (∀ cfg ann frameHash emb,
        is_duplicate cfg ann frameHash emb DDState.clear =
          (.unique emb, ⟨[frameHash], [emb], none⟩)) ∧
    (∀ cfg ann (batchSize dim : ℕ) (videoName : String)
        (extractResult : Option (List FrameInput)) (ps : PipelineState) (d1 d2 : DDState),
        videoName ∉ ps.processedVideos →
        process_video cfg ann batchSize dim videoName extractResult
            { ps with detector := d1 } =
          process_video cfg ann batchSize dim videoName extractResult
            { ps with detector := d2 }) := by
  refine ⟨⟨rfl, rfl, rfl⟩, ?_, ?_⟩
  · intro cfg ann frameHash emb
    simp [is_duplicate, stage1HitB, DDState.clear, sliceLast_nil, is_similar_to_any,
      acceptFrame]
  · intro cfg ann batchSize dim videoName extractResult ps d1 d2 h
    cases extractResult <;> simp [process_video, h]

/-!
## Concrete inputs for counterexamples and witnesses
-/

/-- 768-dimensional vector with ones in the first 8 coordinates. -/
def ePos : Emb := List.replicate 8 1 ++ List.replicate 760 0

/-- 768-dimensional vector with minus-ones in the first 8 coordinates
(`dot eNeg ePos = -8`, and its LSH signature differs from `ePos` in
every bit). -/
def eNeg : Emb := List.replicate 8 (-1) ++ List.replicate 760 0

def hashA : Hash := List.replicate 8 false

def hashB : Hash := List.replicate 8 true

/-- Detector configuration with the settings' hash and similarity
thresholds and window size 1 (the constructor accepts any window). -/
def cfgC3 : DDConfig := ⟨Settings.HASH_THRESHOLD, 1, Settings.SIMILARITY_THRESHOLD⟩

/-- A reachable detector state (two accepted frames: `ePos` then
`eNeg`) whose LSH index has never been built. -/
def stateC3 : DDState := ⟨[hashA, hashA], [ePos, eNeg], none⟩

lemma ePos_length : ePos.length = 768 := by simp [ePos]

lemma eNeg_length : eNeg.length = 768 := by simp [eNeg]

lemma dot_eNeg_ePos : dot eNeg ePos = -8 := by
  unfold dot eNeg ePos
  rw [List.zipWith_append _ _ _ _ _ (by simp), List.zipWith_replicate', List.zipWith_replicate',
    List.sum_append, List.sum_replicate, List.sum_replicate]
  norm_num

lemma dot_ePos_ePos : dot ePos ePos = 8 := by
  unfold dot ePos
  rw [List.zipWith_append _ _ _ _ _ (by simp), List.zipWith_replicate', List.zipWith_replicate',
    List.sum_append, List.sum_replicate, List.sum_replicate]
  norm_num

lemma hsimF : is_similar_to_any cfgC3.simThreshold ePos [eNeg] = some false := by
  rw [is_similar_to_any_isSome _ _ _ (by
    intro e he
    simp only [List.mem_singleton] at he
    subst he
    rw [eNeg_length, ePos_length])]
  simp only [List.any_cons, List.any_nil, dot_eNeg_ePos, Bool.or_false]
  norm_num [cfgC3, Settings.SIMILARITY_THRESHOLD]

lemma hsimT : is_similar_to_any cfgC3.simThreshold ePos [ePos, eNeg] = some true := by
  rw [is_similar_to_any_isSome _ _ _ (by
    intro e he
    simp only [List.mem_cons, List.not_mem_nil, or_false] at he
    rcases he with he | he <;> subst he
    · rfl
    · rw [eNeg_length, ePos_length])]
  simp only [List.any_cons, List.any_nil, dot_ePos_ePos, dot_eNeg_ePos]
  norm_num [cfgC3, Settings.SIMILARITY_THRESHOLD]

lemma hupd : update_lsh_index stateC3 =
    (true, ⟨[hashA, hashA], [ePos, eNeg], some [ePos, eNeg]⟩) := by
  have h1 : raggedRows [ePos, eNeg] = false := by decide
  simp [update_lsh_index, stateC3, h1, ePos_length, eNeg_length,
    DuplicateDetector.EMBEDDING_DIM]

lemma hcands : (lshSearchModel [ePos, eNeg] ePos).filterMap (fun i =>
    if 0 ≤ i ∧ i < (([ePos, eNeg] : List Emb).length : ℤ)
    then ([ePos, eNeg] : List Emb).get? i.toNat else none) = [ePos, eNeg] := by decide

/-- Full evaluation of the twelfth-style call: the hash stage misses,
the window (of size 1) sees only `eNeg`, the approximate stage rebuilds
the LSH index, finds `ePos` at position 0 and reports a duplicate. -/
lemma keyC3 : is_duplicate cfgC3 lshSearchModel hashB ePos stateC3 =
    (.dup, ⟨[hashA, hashA], [ePos, eNeg], some [ePos, eNeg]⟩) := by
  have h1 : stage1HitB cfgC3 hashB stateC3 = false := by decide
  have hslice : sliceLast cfgC3.windowSize stateC3.frameEmbeddings = [eNeg] := by decide
  have hlen : stateC3.frameEmbeddings.length > cfgC3.windowSize := by decide
  have hcond : (stateC3.lshIndex = none ∨
      stateC3.frameEmbeddings.length % DuplicateDetector.LSH_UPDATE_FREQUENCY = 0) := by
    left
    rfl
  simp only [is_duplicate, h1, Bool.false_eq_true, if_false, ite_false, hslice, hsimF, hlen,
    if_true, ite_true, lshStage, if_pos hcond, hupd]
  simp only [ePos_length, ne_eq, not_true_eq_false, if_false, ite_false]
  simp only [hcands, hsimT]
  simp [DuplicateDetector.EMBEDDING_DIM]

/-- C3 counterexample: on a reachable state (video history `ePos` then
`eNeg`, LSH index not yet built, window size 1), a frame whose first
positive signal comes from the approximate-lookback stage is returned
as Duplicate, yet the per-video state is *not* unchanged: the ANN index
component was rebuilt (from `none` to a two-vector index) inside the
call.  This falsifies the claim's "any positive signal returns
Duplicate with state unchanged". -/
theorem C3_stage_order_cex :
    (is_duplicate cfgC3 lshSearchModel hashB ePos stateC3).1 = .dup ∧
    stateC3.lshIndex = none ∧
    (is_duplicate cfgC3 lshSearchModel hashB ePos stateC3).2.lshIndex = some [ePos, eNeg] ∧
    (is_duplicate cfgC3 lshSearchModel hashB ePos stateC3).2 ≠ stateC3 := by
  refine ⟨by rw [keyC3], rfl, by rw [keyC3], ?_⟩
  rw [keyC3]
  intro h
  have := congrArg DDState.lshIndex h
  simp [stateC3] at this

/-- Witness for C3: a hash-stage duplicate (distance 0 below the
threshold 5) is reported immediately with the state untouched. -/
theorem C3_stage_order_witness :
    stage1HitB defaultCfg hashA ⟨[hashA], [], none⟩ = true ∧
    is_duplicate defaultCfg lshSearchModel hashA [] ⟨[hashA], [], none⟩ =
      (.dup, ⟨[hashA], [], none⟩) :=
  ⟨by decide,
   (C3_stage_order defaultCfg lshSearchModel hashA [] ⟨[hashA], [], none⟩).1 (by decide)⟩

/-- C4 counterexample: a 1-dimensional embedding (length ≠ 768) fed to
a freshly cleared detector is accepted as Unique without any error —
`is_duplicate` performs no dimension check, so the claim "for every
embedding whose length disagrees with the configured embedding
dimension, is_duplicate fails" is false. -/
theorem C4_dimension_handling_cex :
    ([(1 : ℚ)].length ≠ DuplicateDetector.EMBEDDING_DIM) ∧
    is_duplicate defaultCfg lshSearchModel hashA [1] DDState.clear =
      (.unique [1], ⟨[hashA], [[1]], none⟩) := by
  exact ⟨by decide, by decide⟩

/-- Witness for C4: a 768-dimensional embedding on the cleared state
does not fail, and a 1-dimensional embedding against a stored
2-dimensional window fails with the dimension error. -/
theorem C4_dimension_handling_witness :
    ((List.replicate 768 (0 : ℚ)).length = DuplicateDetector.EMBEDDING_DIM ∧
      (∀ e ∈ DDState.clear.frameEmbeddings, e.length = DuplicateDetector.EMBEDDING_DIM) ∧
      (is_duplicate defaultCfg lshSearchModel hashA
          (List.replicate 768 0) DDState.clear).1 ≠ .err) ∧
    (stage1HitB defaultCfg hashA ⟨[], [[0, 0]], none⟩ = false ∧
      sliceLast defaultCfg.windowSize (DDState.mk [] [[0, 0]] none).frameEmbeddings ≠ [] ∧
      (∃ e ∈ sliceLast defaultCfg.windowSize (DDState.mk [] [[0, 0]] none).frameEmbeddings,
        e.length ≠ [(1 : ℚ)].length) ∧
      is_duplicate defaultCfg lshSearchModel hashA [1] ⟨[], [[0, 0]], none⟩ =
        (.err, ⟨[], [[0, 0]], none⟩)) :=
  ⟨⟨by decide, by decide,
    C4_dimension_handling.1 defaultCfg lshSearchModel hashA (List.replicate 768 0)
      DDState.clear (by decide) (by decide)⟩,
   ⟨by decide, by decide, by decide,
    C4_dimension_handling.2 defaultCfg lshSearchModel hashA [1] ⟨[], [[0, 0]], none⟩
      (by decide) (by decide) (by decide)⟩⟩

/-- An accepted embedding with rescaled similarity 0.97 to the query
`[1]`: `(0.94 + 1)/2 = 0.97`. -/
def e97 : Emb := [47 / 50]

/-- An accepted embedding with rescaled similarity 0.90 to the query
`[1]`: `(0.8 + 1)/2 = 0.9`. -/
def e90 : Emb := [4 / 5]

def s97 : DDState := ⟨[hashA], List.replicate 10 e97, none⟩

def s90 : DDState := ⟨[hashA], List.replicate 10 e90, none⟩

lemma hex97 : ∃ e ∈ sliceLast Settings.WINDOW_SIZE s97.frameEmbeddings,
    (dot e [1] + 1) / 2 > Settings.SIMILARITY_THRESHOLD := by
  have hsl : sliceLast Settings.WINDOW_SIZE s97.frameEmbeddings = List.replicate 10 e97 := by
    simp [sliceLast, s97, Settings.WINDOW_SIZE]
  rw [hsl]
  refine ⟨e97, List.mem_replicate.mpr ⟨by norm_num, rfl⟩, ?_⟩
  norm_num [dot, e97, Settings.SIMILARITY_THRESHOLD]

lemma hnex90 : ¬ ∃ e ∈ sliceLast Settings.WINDOW_SIZE s90.frameEmbeddings,
    (dot e [1] + 1) / 2 > Settings.SIMILARITY_THRESHOLD := by
  have hsl : sliceLast Settings.WINDOW_SIZE s90.frameEmbeddings = List.replicate 10 e90 := by
    simp [sliceLast, s90, Settings.WINDOW_SIZE]
  rw [hsl]
  rintro ⟨e, he, hgt⟩
  rw [List.eq_of_mem_replicate he] at hgt
  rw [show dot e90 [1] = 4 / 5 by norm_num [dot, e90]] at hgt
  norm_num [Settings.SIMILARITY_THRESHOLD] at hgt

/-- Witness for C5, instantiating the claim's two scenarios: rescaled
similarity 0.97 to each of the last 10 accepted embeddings ⇒ Duplicate;
rescaled similarity 0.90 to all of them (with the hash stage passed and
no lookback applicable) ⇒ the frame is accepted as Unique. -/
theorem C5_windowed_similarity_witness :
    is_duplicate ⟨Settings.HASH_THRESHOLD, Settings.WINDOW_SIZE, Settings.SIMILARITY_THRESHOLD⟩
        lshSearchModel hashB [1] s97 = (.dup, s97) ∧
    is_duplicate ⟨Settings.HASH_THRESHOLD, Settings.WINDOW_SIZE, Settings.SIMILARITY_THRESHOLD⟩
        lshSearchModel hashB [1] s90 = acceptFrame hashB [1] s90 :=
  ⟨(C5_windowed_similarity lshSearchModel Settings.HASH_THRESHOLD hashB [1] s97
      (by decide) (by decide)).1 hex97,
   ((C5_windowed_similarity lshSearchModel Settings.HASH_THRESHOLD hashB [1] s90
      (by decide) (by decide)).2.1 (by decide) hnex90)⟩

def vidA : String := "a"

def ps0 : PipelineState := ⟨⟨[], []⟩, DDState.clear, [], 0, 0, 0, ⟨none, .absent⟩⟩

/-- Witness for C6: the first evaluation on a cleared detector accepts
an arbitrary frame, and `process_video` on a fresh video gives the same
result whether the detector still carries another video's state or was
already cleared. -/
theorem C6_reset_cross_video_witness :
    is_duplicate defaultCfg lshSearchModel hashA [1] DDState.clear =
      (.unique [1], ⟨[hashA], [[1]], none⟩) ∧
    vidA ∉ ps0.processedVideos ∧
    process_video defaultCfg lshSearchModel 32 768 vidA none
        { ps0 with detector := ⟨[hashA], [[1]], none⟩ } =
      process_video defaultCfg lshSearchModel 32 768 vidA none
        { ps0 with detector := DDState.clear } :=
  ⟨(C6_reset_cross_video.2.1 defaultCfg lshSearchModel hashA [1]),
   by simp [ps0],
   (C6_reset_cross_video.2.2 defaultCfg lshSearchModel 32 768 vidA none ps0
      ⟨[hashA], [[1]], none⟩ DDState.clear (by simp [ps0]))⟩

/-- Witness for C7: an empty store answers `[]` for a successful and
for a failed query embedding, and on a one-vector store (dimension 0)
every returned record comes from the metadata list. -/
theorem C7_search_fail_open_witness :
    (FaissState.mk [] [default]).vectors = ([] : List Emb) ∧
    search 0 ⟨[], [default]⟩ (some []) 4 = some [] ∧
    search 0 ⟨[], [default]⟩ none 4 = some [] ∧
    (search 0 ⟨[[]], [default]⟩ (some []) 1 = some [(default, 0)] ∧
      ∀ p ∈ [((default : Record), (0 : ℚ))], p.1 ∈ (FaissState.mk [[]] [default]).metadata) :=
  ⟨rfl,
   C7_search_fail_open.1 0 ⟨[], [default]⟩ (some []) 4 rfl,
   C7_search_fail_open.2.1 0 ⟨[], [default]⟩ 4,
   by decide,
   C7_search_fail_open.2.2 0 ⟨[[]], [default]⟩ [] 1 [(default, 0)] (by decide)⟩


/-!
## C8: top-k ordering of `search`
-/

def qGe (a b : ℚ) : Prop := b ≤ a

instance : DecidableRel qGe := fun a b => inferInstanceAs (Decidable (b ≤ a))

instance : IsTotal ℚ qGe := ⟨fun a b => (le_total b a).imp id id⟩

instance : IsTrans ℚ qGe := ⟨fun _ _ _ hab hbc => le_trans hbc hab⟩

instance : IsAntisymm ℚ qGe := ⟨fun _ _ h1 h2 => le_antisymm h2 h1⟩

instance : IsTotal (ℕ × ℚ) ipOrder := by
  constructor
  intro p q
  rcases lt_trichotomy p.2 q.2 with h | h | h
  · exact Or.inr (Or.inl h)
  · rcases le_total p.1 q.1 with h1 | h1
    · exact Or.inl (Or.inr ⟨h, h1⟩)
    · exact Or.inr (Or.inr ⟨h.symm, h1⟩)
  · exact Or.inl (Or.inl h)

instance : IsTrans (ℕ × ℚ) ipOrder := by
  constructor
  rintro a b c (hab | ⟨hab, hab1⟩) (hbc | ⟨hbc, hbc1⟩)
  · exact Or.inl (lt_trans hbc hab)
  · exact Or.inl (hbc ▸ hab)
  · exact Or.inl (lt_of_lt_of_le hbc (le_of_eq hab.symm))
  · exact Or.inr ⟨hab.trans hbc, le_trans hab1 hbc1⟩

lemma ipOrder_imp_qGe (p q : ℕ × ℚ) (h : ipOrder p q) : qGe p.2 q.2 := by
  rcases h with h | ⟨h, _⟩
  · exact le_of_lt h
  · exact le_of_eq h.symm

lemma filterMap_eq_map_of {α β : Type} (l : List α) (F : α → Option β) (g : α → β)
    (h : ∀ x ∈ l, F x = some (g x)) : l.filterMap F = l.map g := by
  induction l with
  | nil => rfl
  | cons a l ih =>
    rw [List.filterMap_cons, h a (List.mem_cons_self a l), List.map_cons,
      ih (fun x hx => h x (List.mem_cons_of_mem _ hx))]

lemma filterMap_replicate_none {α β : Type} (n : ℕ) (a : α) (F : α → Option β)
    (h : F a = none) : (List.replicate n a).filterMap F = [] := by
  induction n with
  | zero => rfl
  | succ n ih => rw [List.replicate_succ, List.filterMap_cons, h, ih]

/-- C8.  On a store satisfying the pairing invariant and queried with
an embedding of the index dimension, `search` succeeds and returns
exactly `min topK n` results, in descending score order, whose score
list is the `topK`-prefix of the descending sort of all inner-product
scores — i.e. the results are the `topK` highest-scoring entries. -/
theorem C8_search_topk :
    ∀ dim (s : FaissState) q topK, q.length = dim →
      s.vectors.length = s.metadata.length →
      ∃ R, search dim s (some q) topK = some R ∧
        R.length = min topK s.vectors.length ∧
        List.Pairwise (fun a b => qGe a.2 b.2) R ∧
        R.map Prod.snd =
          (List.insertionSort qGe (s.vectors.map (fun v => dot v q))).take topK := by
  intro dim s q k hq hinv
  by_cases h0 : s.vectors.length = 0
  · refine ⟨[], by simp [search, h0], by simp [h0], List.Pairwise.nil, ?_⟩
    rw [List.length_eq_zero] at h0
    simp [h0]
  · set scored := s.vectors.enum.map (fun p => (p.1, dot p.2 q)) with hscored
    set sorted := List.insertionSort ipOrder scored with hsorted
    have hsortedmem : ∀ p ∈ sorted, p.1 < s.vectors.length := by
      intro p hp
      have hp2 : p ∈ scored := (List.perm_insertionSort ipOrder scored).subset hp
      rw [hscored] at hp2
      obtain ⟨⟨i, v⟩, hiv, rfl⟩ := List.mem_map.mp hp2
      have h3 := List.mem_enum_iff_getElem?.mp hiv
      exact (List.getElem?_eq_some.mp h3).1
    set g : ℕ × ℚ → Record × ℚ :=
      fun p => ((s.metadata.get? p.1).getD default, p.2) with hg
    have hmain : search dim s (some q) k = some ((sorted.take k).map g) := by
      unfold search
      rw [if_neg h0]
      dsimp only
      rw [if_neg (by simp [hq])]
      congr 1
      rw [List.filterMap_append]
      rw [filterMap_replicate_none _ _ _ (by norm_num)]
      rw [List.append_nil, List.filterMap_map]
      apply filterMap_eq_map_of
      intro x hx
      have hxlt : x.1 < s.metadata.length :=
        hinv ▸ hsortedmem x (List.take_subset k sorted hx)
      have hcond : (0 : ℤ) ≤ (x.1 : ℤ) ∧ (x.1 : ℤ) < (s.metadata.length : ℤ) :=
        ⟨Int.ofNat_nonneg x.1, by exact_mod_cast hxlt⟩
      simp only [Function.comp_apply, hcond, and_self, if_pos, Int.toNat_natCast, hg]
      cases hget : s.metadata.get? x.1 with
      | none => exact absurd hxlt (by simpa using List.get?_eq_none.mp hget)
      | some r => simp [hget]
    have hlen2 : sorted.length = s.vectors.length := by
      rw [hsorted]
      rw [(List.perm_insertionSort ipOrder scored).length_eq, hscored]
      simp
    have hsnd : sorted.map Prod.snd =
        List.insertionSort qGe (s.vectors.map (fun v => dot v q)) := by
      have hperm : List.Perm (sorted.map Prod.snd)
          (List.insertionSort qGe (s.vectors.map (fun v => dot v q))) := by
        refine ((List.perm_insertionSort ipOrder scored).map Prod.snd).trans ?_
        refine List.Perm.trans ?_ (List.perm_insertionSort qGe _).symm
        rw [hscored, List.map_map]
        have : (Prod.snd ∘ fun p : ℕ × Emb => (p.1, dot p.2 q)) =
            (fun v => dot v q) ∘ Prod.snd := rfl
        rw [this, ← List.map_map, List.enum_map_snd]
      have hs1 : List.Sorted qGe (sorted.map Prod.snd) := by
        rw [List.Sorted, List.pairwise_map]
        exact (List.sorted_insertionSort ipOrder scored).imp
          (fun h => ipOrder_imp_qGe _ _ h)
      exact List.eq_of_perm_of_sorted hperm hs1 (List.sorted_insertionSort qGe _)
    refine ⟨(sorted.take k).map g, hmain, ?_, ?_, ?_⟩
    · rw [List.length_map, List.length_take, hlen2]
    · rw [List.pairwise_map]
      refine List.Pairwise.imp ?_
        ((List.sorted_insertionSort ipOrder scored).sublist (List.take_sublist k sorted))
      intro a b h
      exact ipOrder_imp_qGe _ _ h
    · rw [List.map_map]
      have : (Prod.snd ∘ g) = Prod.snd := rfl
      rw [this, List.map_take, hsnd]

def rX : Record := ⟨"x", "v", 0⟩
def rY : Record := ⟨"y", "v", 1⟩
def rZ : Record := ⟨"z", "v", 2⟩

def scnB : FaissState := ⟨[[9/10], [1/2], [99/100]], [rX, rY, rZ]⟩

lemma hscnB : search 1 scnB (some [1]) 2 = some [(rZ, 99/100), (rX, 9/10)] := by
  norm_num [search, scnB, dot, ipOrder, List.filterMap_cons]
  decide

def scnA : FaissState :=
  ⟨[[1, 0, 0, 0], [0, 1, 0, 0], [7071 / 10000, 7071 / 10000, 0, 0]], [rX, rY, rZ]⟩

lemma hscnA : search 4 scnA (some [1, 0, 0, 0]) 2 = some [(rX, 1), (rZ, 7071 / 10000)] := by
  norm_num [search, scnA, dot, ipOrder, List.filterMap_cons]
  decide

/-- Witness for C8: the spec's two concrete scenarios.  Dimension 4
with e1=[1,0,0,0], e2=[0,1,0,0], e3=[0.7071,0.7071,0,0] and query
[1,0,0,0], k=2 yields [(e1-record, 1.0), (e3-record, 0.7071)]; and a
store with similarities [0.9, 0.5, 0.99] to the query returns the 0.99
entry first, then the 0.9 entry, never the 0.5 one. -/
theorem C8_search_topk_witness :
    (([1, 0, 0, 0] : Emb).length = 4 ∧ scnA.vectors.length = scnA.metadata.length ∧
      ∃ R, search 4 scnA (some [1, 0, 0, 0]) 2 = some R ∧
        R.length = min 2 scnA.vectors.length ∧
        List.Pairwise (fun a b => qGe a.2 b.2) R ∧
        R.map Prod.snd =
          (List.insertionSort qGe (scnA.vectors.map (fun v => dot v [1, 0, 0, 0]))).take 2) ∧
    search 4 scnA (some [1, 0, 0, 0]) 2 = some [(rX, 1), (rZ, 7071 / 10000)] ∧
    search 1 scnB (some [1]) 2 = some [(rZ, 99 / 100), (rX, 9 / 10)] :=
  ⟨⟨rfl, rfl, C8_search_topk 4 scnA [1, 0, 0, 0] 2 rfl rfl⟩, hscnA, hscnB⟩

/-!
## C9 and C10: pipeline persistence and accounting
-/

/-- C9.  The ingestion pipeline never persists implicitly:
`process_video` leaves the on-disk artifacts untouched on every path,
and `finalize_processing` — the only operation that invokes
`save_index` — performs no write at all when the run stored zero new
frames, and otherwise writes exactly the in-memory store. -/
theorem C9_no_implicit_persist :
    (∀ cfg ann (batchSize dim : ℕ) (videoName : String)
        (extractResult : Option (List FrameInput)) (ps : PipelineState),
        (process_video cfg ann batchSize dim videoName extractResult ps).disk = ps.disk) ∧
    (∀ ps : PipelineState, ps.totalFramesStored = 0 → finalize_processing ps = ps) ∧
    (∀ ps : PipelineState, 0 < ps.totalFramesStored →
        finalize_processing ps = { ps with disk := save_index ps.faiss }) := by
  refine ⟨?_, ?_, ?_⟩
  · intro cfg ann batchSize dim videoName extractResult ps
    unfold process_video
    split
    · rfl
    · split
      · rfl
      · dsimp only
        split <;> rfl
  · intro ps h
    simp [finalize_processing, h]
  · intro ps h
    simp [finalize_processing, h]

/-- Reference count, defined from `process_frame` alone, of the frames
of a video on which `process_frame` yields no (metadata, embedding)
pair — a Duplicate verdict or a frame-level failure (embedding error,
detector exception, or asset-save failure). -/
def droppedFrameCount (cfg : DDConfig) (ann : List Emb → Emb → List ℤ)
    (videoName : String) : List FrameInput → ℕ → DDState → ℕ
  | [], _, _ => 0
  | f :: fs, i, det =>
    let q := process_frame cfg ann f videoName i det
    match q.1 with
    | (some _, some _) => droppedFrameCount cfg ann videoName fs (i + 1) q.2
    | _ => 1 + droppedFrameCount cfg ann videoName fs (i + 1) q.2

lemma runFrames_identity (cfg : DDConfig) (ann : List Emb → Emb → List ℤ)
    (batchSize dim : ℕ) (videoName : String) :
    ∀ (frames : List FrameInput) (i : ℕ) (r : VideoRun),
      r.framesExtracted = r.duplicates + r.framesStored →
      (runFrames cfg ann batchSize dim videoName frames i r).framesExtracted =
        (runFrames cfg ann batchSize dim videoName frames i r).duplicates +
          (runFrames cfg ann batchSize dim videoName frames i r).framesStored := by
  intro frames
  induction frames with
  | nil => intro i r h; simpa [runFrames] using h
  | cons f fs ih =>
    intro i r h
    rw [runFrames]
    rcases hq : (process_frame cfg ann f videoName i r.det).1 with ⟨md, e⟩
    rcases md with _ | md <;> rcases e with _ | e <;> dsimp only
    · exact ih (i + 1) _ (by dsimp only; omega)
    · exact ih (i + 1) _ (by dsimp only; omega)
    · exact ih (i + 1) _ (by dsimp only; omega)
    · split
      · split
        · exact ih (i + 1) _ (by dsimp only; omega)
        · dsimp only; omega
      · exact ih (i + 1) _ (by dsimp only; omega)

lemma runFrames_dropped (cfg : DDConfig) (ann : List Emb → Emb → List ℤ)
    (batchSize dim : ℕ) (videoName : String) :
    ∀ (frames : List FrameInput) (i : ℕ) (r : VideoRun),
      (runFrames cfg ann batchSize dim videoName frames i r).aborted = false →
      (runFrames cfg ann batchSize dim videoName frames i r).duplicates =
        r.duplicates + droppedFrameCount cfg ann videoName frames i r.det := by
  intro frames
  induction frames with
  | nil => intro i r _; simp [runFrames, droppedFrameCount]
  | cons f fs ih =>
    intro i r hab
    rw [runFrames] at hab ⊢
    rw [droppedFrameCount]
    rcases hq : (process_frame cfg ann f videoName i r.det).1 with ⟨md, e⟩
    rw [hq] at hab
    rcases md with _ | md <;> rcases e with _ | e <;> dsimp only
    · rw [ih (i + 1) _ (by simpa using hab)]; dsimp only; omega
    · rw [ih (i + 1) _ (by simpa using hab)]; dsimp only; omega
    · rw [ih (i + 1) _ (by simpa using hab)]; dsimp only; omega
    · dsimp only at hab ⊢
      split at hab
      case isTrue hfull =>
        split at hab
        case h_1 fs2 hstore =>
          rw [if_pos hfull]
          rw [ih (i + 1) _ hab]
        case h_2 hstore =>
          simp at hab
      case isFalse hfull =>
        rw [if_neg hfull]
        exact ih (i + 1) _ hab

lemma flushRemainder_counters (dim : ℕ) (r : VideoRun) :
    (flushRemainder dim r).framesExtracted = r.framesExtracted ∧
    (flushRemainder dim r).duplicates = r.duplicates ∧
    (flushRemainder dim r).framesStored = r.framesStored := by
  unfold flushRemainder
  split
  · exact ⟨rfl, rfl, rfl⟩
  · split
    · exact ⟨rfl, rfl, rfl⟩
    · split <;> exact ⟨rfl, rfl, rfl⟩

lemma process_video_identity (cfg : DDConfig) (ann : List Emb → Emb → List ℤ)
    (batchSize dim : ℕ) (videoName : String)
    (extractResult : Option (List FrameInput)) (ps : PipelineState)
    (h : ps.totalFramesExtracted = ps.totalDuplicateFrames + ps.totalFramesStored) :
    (process_video cfg ann batchSize dim videoName extractResult ps).totalFramesExtracted =
      (process_video cfg ann batchSize dim videoName extractResult ps).totalDuplicateFrames +
        (process_video cfg ann batchSize dim videoName extractResult ps).totalFramesStored := by
  unfold process_video
  split
  · exact h
  · split
    · exact h
    · rename_i frames
      dsimp only
      split
      · exact h
      · dsimp only
        have h1 := runFrames_identity cfg ann batchSize dim videoName frames 0
          (initRun ps.faiss) (by simp [initRun])
        have h2 := flushRemainder_counters dim
          (runFrames cfg ann batchSize dim videoName frames 0 (initRun ps.faiss))
        omega

def frameOkA : FrameInput := ⟨hashA, 0, some [1], true⟩

def frameFailA : FrameInput := ⟨hashA, 0, some [1], false⟩

/-- Witness for C9: on a fresh pipeline state, processing a video
leaves the disk untouched; finalizing with zero stored frames is a
no-op; finalizing with a positive counter writes the store. -/
theorem C9_no_implicit_persist_witness :
    (process_video defaultCfg lshSearchModel 32 768 vidA none ps0).disk = ps0.disk ∧
    (ps0.totalFramesStored = 0 ∧ finalize_processing ps0 = ps0) ∧
    (0 < ({ ps0 with totalFramesStored := 1 } : PipelineState).totalFramesStored ∧
      finalize_processing { ps0 with totalFramesStored := 1 } =
        { { ps0 with totalFramesStored := 1 } with
            disk := save_index ({ ps0 with totalFramesStored := 1 } : PipelineState).faiss }) :=
  ⟨C9_no_implicit_persist.1 defaultCfg lshSearchModel 32 768 vidA none ps0,
   ⟨rfl, C9_no_implicit_persist.2.1 ps0 rfl⟩,
   ⟨by decide, C9_no_implicit_persist.2.2 { ps0 with totalFramesStored := 1 } (by decide)⟩⟩

/-- C10 (amended).  The per-video counters satisfy
`frames extracted = duplicates detected + frames stored` throughout the
frame loop, the cumulative counters preserve the same identity across
`process_video`, and — for a video that is not aborted by a store
failure — the duplicate counter counts exactly the frames on which
`process_frame` returned no (metadata, embedding) pair: Duplicate
verdicts *and* frame-level failures (embedding error, detector
exception, asset-save failure), not only detector Duplicate verdicts
(see the counterexample). -/
theorem C10_duplicate_accounting :
    (∀ cfg ann (batchSize dim : ℕ) (videoName : String) frames (i : ℕ) (r : VideoRun),
        r.framesExtracted = r.duplicates + r.framesStored →
        (runFrames cfg ann batchSize dim videoName frames i r).framesExtracted =
          (runFrames cfg ann batchSize dim videoName frames i r).duplicates +
            (runFrames cfg ann batchSize dim videoName frames i r).framesStored) ∧
    (∀ cfg ann (batchSize dim : ℕ) (videoName : String) frames (i : ℕ) (r : VideoRun),
        (runFrames cfg ann batchSize dim videoName frames i r).aborted = false →
        (runFrames cfg ann batchSize dim videoName frames i r).duplicates =
          r.duplicates + droppedFrameCount cfg ann videoName frames i r.det) ∧
    (∀ cfg ann (batchSize dim : ℕ) (videoName : String)
        (extractResult : Option (List FrameInput)) (ps : PipelineState),
        ps.totalFramesExtracted = ps.totalDuplicateFrames + ps.totalFramesStored →
        (process_video cfg ann batchSize dim videoName extractResult ps).totalFramesExtracted =
          (process_video cfg ann batchSize dim videoName extractResult
              ps).totalDuplicateFrames +
            (process_video cfg ann batchSize dim videoName extractResult
              ps).totalFramesStored) :=
  ⟨fun cfg ann bs dim vn frames i r h =>
      runFrames_identity cfg ann bs dim vn frames i r h,
   fun cfg ann bs dim vn frames i r h =>
      runFrames_dropped cfg ann bs dim vn frames i r h,
   fun cfg ann bs dim vn er ps h =>
      process_video_identity cfg ann bs dim vn er ps h⟩

/-- C10 counterexample: a single frame whose embedding is fine and
which the detector accepts as Unique (its embedding is appended to the
detector state), but whose asset save fails.  The duplicate counter
still ends at 1, although the duplicate detector never returned a
Duplicate verdict — falsifying "incremented exactly for those frames on
which the duplicate detector returned a Duplicate verdict". -/
theorem C10_duplicate_accounting_cex :
    (process_video defaultCfg lshSearchModel 32 768 vidA (some [frameFailA])
        ps0).totalDuplicateFrames = 1 ∧
    (process_video defaultCfg lshSearchModel 32 768 vidA (some [frameFailA])
        ps0).detector.frameEmbeddings = [[1]] ∧
    (process_video defaultCfg lshSearchModel 32 768 vidA (some [frameFailA])
        ps0).totalFramesStored = 0 ∧
    (process_video defaultCfg lshSearchModel 32 768 vidA (some [frameFailA])
        ps0).totalFramesExtracted = 1 := by
  refine ⟨?_, ?_, ?_, ?_⟩ <;> decide

/-- Witness for C10: the loop identity from the start state, the exact
dropped-frame characterization on a one-frame video, and the cumulative
identity on a fresh pipeline state. -/
theorem C10_duplicate_accounting_witness :
    ((initRun ⟨[], []⟩).framesExtracted =
        (initRun ⟨[], []⟩).duplicates + (initRun ⟨[], []⟩).framesStored) ∧
    ((runFrames defaultCfg lshSearchModel 32 768 vidA [frameOkA] 0
        (initRun ⟨[], []⟩)).framesExtracted =
      (runFrames defaultCfg lshSearchModel 32 768 vidA [frameOkA] 0
          (initRun ⟨[], []⟩)).duplicates +
        (runFrames defaultCfg lshSearchModel 32 768 vidA [frameOkA] 0
          (initRun ⟨[], []⟩)).framesStored) ∧
    ((runFrames defaultCfg lshSearchModel 32 768 vidA [frameOkA] 0
        (initRun ⟨[], []⟩)).aborted = false) ∧
    ((runFrames defaultCfg lshSearchModel 32 768 vidA [frameOkA] 0
        (initRun ⟨[], []⟩)).duplicates =
      (initRun ⟨[], []⟩).duplicates +
        droppedFrameCount defaultCfg lshSearchModel vidA [frameOkA] 0
          (initRun ⟨[], []⟩).det) ∧
    (ps0.totalFramesExtracted = ps0.totalDuplicateFrames + ps0.totalFramesStored) ∧
    ((process_video defaultCfg lshSearchModel 32 768 vidA (some [frameOkA])
        ps0).totalFramesExtracted =
      (process_video defaultCfg lshSearchModel 32 768 vidA (some [frameOkA])
          ps0).totalDuplicateFrames +
        (process_video defaultCfg lshSearchModel 32 768 vidA (some [frameOkA])
          ps0).totalFramesStored) :=
  ⟨by decide,
   C10_duplicate_accounting.1 defaultCfg lshSearchModel 32 768 vidA [frameOkA] 0
     (initRun ⟨[], []⟩) (by decide),
   by decide,
   C10_duplicate_accounting.2.1 defaultCfg lshSearchModel 32 768 vidA [frameOkA] 0
     (initRun ⟨[], []⟩) (by decide),
   by decide,
   C10_duplicate_accounting.2.2 defaultCfg lshSearchModel 32 768 vidA
     (some [frameOkA]) ps0 (by decide)⟩
